import Mathlib

/-!
# Verification of the Kafka resource-schema translation layer

A shallow embedding of `yandex/mdb_kafka_structures.go`: the expansion
(declarative tree → API payload), flattening (API payload → declarative tree),
sorting and diffing helpers of the managed-Kafka schema translation layer,
together with proofs about them.

Modelling conventions:
* Go `*wrappers.Int64Value` / `*wrappers.BoolValue` pointers become
  `Option Int` / `Option Bool` (`none` = nil pointer).
* The terraform configuration-tree accessor (`schema.ResourceData`) becomes a
  record with one `Option`-valued field per path the code reads; `d.GetOk(p)`
  is the presence test of that field (the spec describes the accessor as
  "get value at path, with presence flag"), and `d.Get(p)` is the field's value
  with the type's zero value as the default.
* Go's fallible functions returning `(T, error)` become `Except String T`.
* Go machine integers (`int64`) are modelled as `Int`; `strconv.ParseInt`
  checks the 64-bit range explicitly.
-/

namespace KafkaProvider

/-! ## Generated protobuf enumeration tables

The `kafka.*_value` / `*_name` maps come from the generated
`yandex/cloud/mdb/kafka/v1` protobuf package, which is a dependency that is
not part of the vendored sources. -/

/-- Modelled from the spec: the generated enumeration table for the deployment
environment (`kafka.Cluster_Environment_value`); the "unspecified" sentinel is
a valid wire value of the table (ordinal 0). -/
def Cluster_Environment_value : String → Option Int
  | "ENVIRONMENT_UNSPECIFIED" => some 0
  | "PRODUCTION" => some 1
  | "PRESTABLE" => some 2
  | _ => none

/-- Modelled from the spec: the generated enumeration table for the compression
type (`kafka.CompressionType_value`); the "unspecified" sentinel is a valid
wire value of the table (ordinal 0). -/
def CompressionType_value : String → Option Int
  | "COMPRESSION_TYPE_UNSPECIFIED" => some 0
  | "COMPRESSION_TYPE_UNCOMPRESSED" => some 1
  | "COMPRESSION_TYPE_ZSTD" => some 2
  | "COMPRESSION_TYPE_LZ4" => some 3
  | "COMPRESSION_TYPE_SNAPPY" => some 4
  | "COMPRESSION_TYPE_GZIP" => some 5
  | "COMPRESSION_TYPE_PRODUCER" => some 6
  | _ => none

/-- Modelled from the spec: the generated `kafka.CompressionType` ordinal → name
mapping (the Go method `CompressionType.String()`); only ordinals occurring in
the table are produced by this layer. -/
def compressionTypeName : Int → String
  | 0 => "COMPRESSION_TYPE_UNSPECIFIED"
  | 1 => "COMPRESSION_TYPE_UNCOMPRESSED"
  | 2 => "COMPRESSION_TYPE_ZSTD"
  | 3 => "COMPRESSION_TYPE_LZ4"
  | 4 => "COMPRESSION_TYPE_SNAPPY"
  | 5 => "COMPRESSION_TYPE_GZIP"
  | 6 => "COMPRESSION_TYPE_PRODUCER"
  | _ => ""

/-- Modelled from the spec: the generated enumeration table for the SASL
mechanism (`kafka.SaslMechanism_value`). -/
def SaslMechanism_value : String → Option Int
  | "SASL_MECHANISM_UNSPECIFIED" => some 0
  | "SASL_MECHANISM_SCRAM_SHA_256" => some 1
  | "SASL_MECHANISM_SCRAM_SHA_512" => some 2
  | _ => none

/-- Modelled from the spec: the generated `kafka.SaslMechanism` ordinal → name
mapping (the Go method `SaslMechanism.String()`). -/
def saslMechanismName : Int → String
  | 0 => "SASL_MECHANISM_UNSPECIFIED"
  | 1 => "SASL_MECHANISM_SCRAM_SHA_256"
  | 2 => "SASL_MECHANISM_SCRAM_SHA_512"
  | _ => ""

/-- Modelled from the spec: the generated enumeration table for the permission
access role (`kafka.Permission_AccessRole_value`); the "unspecified" sentinel is
a valid wire value of the table (ordinal 0). -/
def Permission_AccessRole_value : String → Option Int
  | "ACCESS_ROLE_UNSPECIFIED" => some 0
  | "ACCESS_ROLE_PRODUCER" => some 1
  | "ACCESS_ROLE_CONSUMER" => some 2
  | "ACCESS_ROLE_ADMIN" => some 3
  | _ => none

/-- Modelled from the spec: the generated `kafka.Permission_AccessRole`
ordinal → name mapping (the Go method `Permission_AccessRole.String()`). -/
def accessRoleName : Int → String
  | 0 => "ACCESS_ROLE_UNSPECIFIED"
  | 1 => "ACCESS_ROLE_PRODUCER"
  | 2 => "ACCESS_ROLE_CONSUMER"
  | 3 => "ACCESS_ROLE_ADMIN"
  | _ => ""

/-- Modelled from the spec: the generated enumeration table for the weekly
maintenance-window day (`kafka.WeeklyMaintenanceWindow_WeekDay_value`), with
the reserved zero ordinal for the unspecified day. -/
def WeeklyMaintenanceWindow_WeekDay_value : String → Option Int
  | "WEEK_DAY_UNSPECIFIED" => some 0
  | "MON" => some 1
  | "TUE" => some 2
  | "WED" => some 3
  | "THU" => some 4
  | "FRI" => some 5
  | "SAT" => some 6
  | "SUN" => some 7
  | _ => none

/-- The source-side cleanup-policy table `Topic_CleanupPolicy_value`
(declared in `mdb_kafka_structures.go` itself). -/
def Topic_CleanupPolicy_value : String → Option Int
  | "CLEANUP_POLICY_UNSPECIFIED" => some 0
  | "CLEANUP_POLICY_DELETE" => some 1
  | "CLEANUP_POLICY_COMPACT" => some 2
  | "CLEANUP_POLICY_COMPACT_AND_DELETE" => some 3
  | _ => none

/-! ## Go standard-library helpers -/

/-- Go byte-wise string comparison, on the character lists: lexicographic,
with a proper initial segment ordered before the longer string. -/
def charListLt : List Char → List Char → Bool
  | _, [] => false
  | [], _ :: _ => true
  | a :: as, b :: bs => if a = b then charListLt as bs else decide (a < b)

/-- Go `a < b` on strings. -/
def goStrLt (a b : String) : Bool := charListLt a.toList b.toList

/-- Go `a <= b` on strings (total order, so the negation of `b < a`). -/
def goStrLe (a b : String) : Bool := !goStrLt b a

/-- Go `strings.HasPrefix`. -/
def goStartsWith (s p : String) : Bool := p.toList.isPrefixOf s.toList

/-- Embedding of Go `strconv.ParseInt(s, 10, 64)`: an optional sign followed by
at least one decimal digit, value within the signed 64-bit range. -/
def goParseInt64 (s : String) : Except String Int :=
  let chars := s.toList
  let digits :=
    if chars.head? = some '-' ∨ chars.head? = some '+' then chars.drop 1 else chars
  if digits.length = 0 then Except.error ("strconv.ParseInt: parsing " ++ s ++ ": invalid syntax")
  else if digits.all Char.isDigit then
    let n : Nat := digits.foldl (fun acc c => acc * 10 + (c.toNat - 48)) 0
    let i : Int := if chars.head? = some '-' then -(n : Int) else (n : Int)
    if i < -(2 ^ 63) ∨ i > 2 ^ 63 - 1 then
      Except.error ("strconv.ParseInt: parsing " ++ s ++ ": value out of range")
    else Except.ok i
  else Except.error ("strconv.ParseInt: parsing " ++ s ++ ": invalid syntax")

/-- Go `sort.Strings`: ascending sort in the byte-wise string order. -/
def sortStrings (l : List String) : List String :=
  List.insertionSort (fun a b => goStrLe a b = true) l

/-! ## Enumeration parsers -/

/-- `parseKafkaEnv`: looks the token up in the environment table; no extra
check for the "unspecified" sentinel is performed. -/
def parseKafkaEnv (e : String) : Except String Int :=
  match Cluster_Environment_value e with
  | some v => Except.ok v
  | none => Except.error ("value for 'environment' must be one of the enumeration values, not " ++ e)

/-- `parseKafkaCompression`: rejects tokens outside the table and the
"unspecified" sentinel. -/
def parseKafkaCompression (e : String) : Except String Int :=
  match CompressionType_value e with
  | some v =>
    if e = "COMPRESSION_TYPE_UNSPECIFIED" then
      Except.error ("value for 'compression_type' must be one of the enumeration values, not " ++ e)
    else Except.ok v
  | none => Except.error ("value for 'compression_type' must be one of the enumeration values, not " ++ e)

/-- `parseKafkaSaslMechanism`: rejects tokens outside the table and the
"unspecified" sentinel. -/
def parseKafkaSaslMechanism (e : String) : Except String Int :=
  match SaslMechanism_value e with
  | some v =>
    if e = "SASL_MECHANISM_UNSPECIFIED" then
      Except.error ("value for 'sasl_mechanism' must be one of the enumeration values, not " ++ e)
    else Except.ok v
  | none => Except.error ("value for 'sasl_mechanism' must be one of the enumeration values, not " ++ e)

/-- `parseKafkaPermissionRole`: looks the token up in the access-role table; no
extra check for the "unspecified" sentinel is performed. -/
def parseKafkaPermissionRole (e : String) : Except String Int :=
  match Permission_AccessRole_value e with
  | some v => Except.ok v
  | none => Except.error ("value for 'role' must be one of the enumeration values, not " ++ e)

/-- `parseKafkaTopicCleanupPolicy`: validated against the single source-side
table; rejects tokens outside it and the "unspecified" sentinel. -/
def parseKafkaTopicCleanupPolicy (e : String) : Except String Int :=
  match Topic_CleanupPolicy_value e with
  | some v =>
    if e = "CLEANUP_POLICY_UNSPECIFIED" then
      Except.error ("value for 'cleanup_policy' must be one of the enumeration values, not " ++ e)
    else Except.ok v
  | none => Except.error ("value for 'cleanup_policy' must be one of the enumeration values, not " ++ e)

/-! ## Scalar config extractors and the Kafka server config pass -/

/-- The declarative `kafka_config` block (the paths under
`config.0.kafka.0.kafka_config.0` read by `parseKafkaConfig`); numeric fields
are strings in the declarative layer. -/
structure KafkaConfigData where
  compression_type : Option String := none
  log_flush_interval_messages : Option String := none
  log_flush_interval_ms : Option String := none
  log_flush_scheduler_interval_ms : Option String := none
  log_retention_bytes : Option String := none
  log_retention_hours : Option String := none
  log_retention_minutes : Option String := none
  log_retention_ms : Option String := none
  log_segment_bytes : Option String := none
  socket_send_buffer_bytes : Option String := none
  socket_receive_buffer_bytes : Option String := none
  num_partitions : Option String := none
  default_replication_factor : Option String := none
  message_max_bytes : Option String := none
  replica_fetch_max_bytes : Option String := none
  offsets_retention_minutes : Option String := none
  auto_create_topics_enable : Option Bool := none
  ssl_cipher_suites : Option (List String) := none
  sasl_enabled_mechanisms : Option (List String) := none
deriving DecidableEq, Repr

/-- The intermediate `KafkaConfig` struct of the source (wrapper pointers as
`Option`). -/
structure KafkaConfig where
  compressionType : Int := 0
  logFlushIntervalMessages : Option Int := none
  logFlushIntervalMs : Option Int := none
  logFlushSchedulerIntervalMs : Option Int := none
  logRetentionBytes : Option Int := none
  logRetentionHours : Option Int := none
  logRetentionMinutes : Option Int := none
  logRetentionMs : Option Int := none
  logSegmentBytes : Option Int := none
  logPreallocate : Option Bool := none
  socketSendBufferBytes : Option Int := none
  socketReceiveBufferBytes : Option Int := none
  autoCreateTopicsEnable : Option Bool := none
  numPartitions : Option Int := none
  defaultReplicationFactor : Option Int := none
  messageMaxBytes : Option Int := none
  replicaFetchMaxBytes : Option Int := none
  sslCipherSuites : Option (List String) := none
  offsetsRetentionMinutes : Option Int := none
  saslEnabledMechanisms : Option (List Int) := none
deriving DecidableEq, Repr

/-- `parseIntKafkaConfigParam`: reads one integer-as-string parameter; the
first argument is the field's value at its path (`d.GetOk`), the second the
current `retErr`. Mirrors the source exactly, including the guard
`if *retErr != nil { *retErr = err }`, which overwrites `retErr` only when it
is already set. -/
def parseIntKafkaConfigParam (paramValue : Option String) (retErr : Option String) :
    Option Int × Option String :=
  match paramValue with
  | none => (none, retErr)
  | some v =>
    match goParseInt64 v with
    | Except.ok i => (some i, retErr)
    | Except.error err =>
      if retErr.isSome then (none, some err) else (none, retErr)

/-- `parseSaslEnabledMechanisms`: parses each mechanism string, failing on the
first invalid one. -/
def parseSaslEnabledMechanisms : List String → Except String (List Int)
  | [] => Except.ok []
  | m :: rest =>
    match parseKafkaSaslMechanism m with
    | Except.error e => Except.error e
    | Except.ok v =>
      match parseSaslEnabledMechanisms rest with
      | Except.error e => Except.error e
      | Except.ok vs => Except.ok (v :: vs)

/-- `parseKafkaConfig`: the Kafka server config extraction pass. Compression is
parsed first (early return), then the fifteen integer-as-string parameters are
extracted threading `retErr`, then the boolean / set fields, then
`retErr` is checked. (`log_preallocate` handling is commented out in the
source, so `logPreallocate` stays `none`.) -/
def parseKafkaConfig (d : KafkaConfigData) : Except String KafkaConfig :=
  let compressionTypeRes : Except String Int :=
    match d.compression_type with
    | some v => parseKafkaCompression v
    | none => Except.ok 0
  match compressionTypeRes with
  | Except.error e => Except.error e
  | Except.ok compressionType =>
    let r1 := parseIntKafkaConfigParam d.log_flush_interval_messages none
    let r2 := parseIntKafkaConfigParam d.log_flush_interval_ms r1.2
    let r3 := parseIntKafkaConfigParam d.log_flush_scheduler_interval_ms r2.2
    let r4 := parseIntKafkaConfigParam d.log_retention_bytes r3.2
    let r5 := parseIntKafkaConfigParam d.log_retention_hours r4.2
    let r6 := parseIntKafkaConfigParam d.log_retention_minutes r5.2
    let r7 := parseIntKafkaConfigParam d.log_retention_ms r6.2
    let r8 := parseIntKafkaConfigParam d.log_segment_bytes r7.2
    let r9 := parseIntKafkaConfigParam d.socket_send_buffer_bytes r8.2
    let r10 := parseIntKafkaConfigParam d.socket_receive_buffer_bytes r9.2
    let r11 := parseIntKafkaConfigParam d.num_partitions r10.2
    let r12 := parseIntKafkaConfigParam d.default_replication_factor r11.2
    let r13 := parseIntKafkaConfigParam d.message_max_bytes r12.2
    let r14 := parseIntKafkaConfigParam d.replica_fetch_max_bytes r13.2
    let r15 := parseIntKafkaConfigParam d.offsets_retention_minutes r14.2
    let saslRes : Except String (Option (List Int)) :=
      match d.sasl_enabled_mechanisms with
      | some l => Except.map some (parseSaslEnabledMechanisms l)
      | none => Except.ok none
    match saslRes with
    | Except.error e => Except.error e
    | Except.ok saslEnabledMechanisms =>
      match r15.2 with
      | some e => Except.error e
      | none =>
        Except.ok {
          compressionType := compressionType
          logFlushIntervalMessages := r1.1
          logFlushIntervalMs := r2.1
          logFlushSchedulerIntervalMs := r3.1
          logRetentionBytes := r4.1
          logRetentionHours := r5.1
          logRetentionMinutes := r6.1
          logRetentionMs := r7.1
          logSegmentBytes := r8.1
          logPreallocate := none
          socketSendBufferBytes := r9.1
          socketReceiveBufferBytes := r10.1
          autoCreateTopicsEnable := d.auto_create_topics_enable
          numPartitions := r11.1
          defaultReplicationFactor := r12.1
          messageMaxBytes := r13.1
          replicaFetchMaxBytes := r14.1
          sslCipherSuites := d.ssl_cipher_suites.map sortStrings
          offsetsRetentionMinutes := r15.1
          saslEnabledMechanisms := saslEnabledMechanisms }

/-! ## Topic config pass -/

/-- The declarative `topic_config` block read by `parseKafkaTopicConfig`
(prefix already applied; `cleanup_policy` and `compression_type` are read with
`d.Get`, whose default is the empty string). -/
structure TopicConfigData where
  cleanup_policy : Option String := none
  compression_type : Option String := none
  delete_retention_ms : Option String := none
  file_delete_delay_ms : Option String := none
  flush_messages : Option String := none
  flush_ms : Option String := none
  min_compaction_lag_ms : Option String := none
  retention_bytes : Option String := none
  retention_ms : Option String := none
  max_message_bytes : Option String := none
  min_insync_replicas : Option String := none
  segment_bytes : Option String := none
  preallocate : Option Bool := none
deriving DecidableEq, Repr

/-- The intermediate `TopicConfig` struct of the source. -/
structure TopicConfig where
  cleanupPolicy : String := ""
  compressionType : Int := 0
  deleteRetentionMs : Option Int := none
  fileDeleteDelayMs : Option Int := none
  flushMessages : Option Int := none
  flushMs : Option Int := none
  minCompactionLagMs : Option Int := none
  retentionBytes : Option Int := none
  retentionMs : Option Int := none
  maxMessageBytes : Option Int := none
  minInsyncReplicas : Option Int := none
  segmentBytes : Option Int := none
  preallocate : Option Bool := none
deriving DecidableEq, Repr

/-- `parseIntTopicConfigParam`: like `parseIntKafkaConfigParam`, but a value
equal to the empty string is returned as the absent marker before any integer
conversion is attempted. -/
def parseIntTopicConfigParam (paramValue : Option String) (retErr : Option String) :
    Option Int × Option String :=
  match paramValue with
  | none => (none, retErr)
  | some str =>
    if str = "" then (none, retErr)
    else
      match goParseInt64 str with
      | Except.ok i => (some i, retErr)
      | Except.error err =>
        if retErr.isSome then (none, some err) else (none, retErr)

/-- `parseKafkaTopicConfig`: the topic config extraction pass (cleanup policy
and compression validated with early return, then the ten integer-as-string
parameters threading `retErr`, then the boolean, then the `retErr` check). -/
def parseKafkaTopicConfig (d : TopicConfigData) : Except String TopicConfig :=
  let cleanupPolicy := d.cleanup_policy.getD ""
  let cleanupRes : Except String String :=
    if cleanupPolicy = "" then Except.ok ""
    else
      match parseKafkaTopicCleanupPolicy cleanupPolicy with
      | Except.error e => Except.error e
      | Except.ok _ => Except.ok cleanupPolicy
  match cleanupRes with
  | Except.error e => Except.error e
  | Except.ok cleanupPolicyVal =>
    let compressionTypeStr := d.compression_type.getD ""
    let compressionRes : Except String Int :=
      if compressionTypeStr = "" then Except.ok 0
      else parseKafkaCompression compressionTypeStr
    match compressionRes with
    | Except.error e => Except.error e
    | Except.ok compressionType =>
      let r1 := parseIntTopicConfigParam d.delete_retention_ms none
      let r2 := parseIntTopicConfigParam d.file_delete_delay_ms r1.2
      let r3 := parseIntTopicConfigParam d.flush_messages r2.2
      let r4 := parseIntTopicConfigParam d.flush_ms r3.2
      let r5 := parseIntTopicConfigParam d.min_compaction_lag_ms r4.2
      let r6 := parseIntTopicConfigParam d.retention_bytes r5.2
      let r7 := parseIntTopicConfigParam d.retention_ms r6.2
      let r8 := parseIntTopicConfigParam d.max_message_bytes r7.2
      let r9 := parseIntTopicConfigParam d.min_insync_replicas r8.2
      let r10 := parseIntTopicConfigParam d.segment_bytes r9.2
      match r10.2 with
      | some e => Except.error e
      | none =>
        Except.ok {
          cleanupPolicy := cleanupPolicyVal
          compressionType := compressionType
          deleteRetentionMs := r1.1
          fileDeleteDelayMs := r2.1
          flushMessages := r3.1
          flushMs := r4.1
          minCompactionLagMs := r5.1
          retentionBytes := r6.1
          retentionMs := r7.1
          maxMessageBytes := r8.1
          minInsyncReplicas := r9.1
          segmentBytes := r10.1
          preallocate := d.preallocate }

/-! ## Permissions -/

/-- One declarative `permission` block: `topic_name`, `role`, `allow_hosts`
(the set of hosts modelled as the list the set iterator produces). -/
structure PermissionBlock where
  topic_name : String
  role : String
  allow_hosts : List String := []
deriving DecidableEq, Repr

/-- The API-side `kafka.Permission` message (role as its enum ordinal). -/
structure Permission where
  topicName : String
  role : Int
  allowHosts : List String := []
deriving DecidableEq, Repr

/-- `parseKafkaPermissionAllowHosts`: empty set becomes nil (here `[]`),
otherwise the hosts are sorted. -/
def parseKafkaPermissionAllowHosts (allowHosts : List String) : List String :=
  if allowHosts = [] then [] else sortStrings allowHosts

/-- `AllowHostsSortedToStr`: empty list becomes `""`, otherwise the hosts are
sorted and comma-joined. -/
def allowHostsSortedToStr (allowHosts : List String) : String :=
  if allowHosts = [] then "" else String.intercalate "," (sortStrings allowHosts)

/-- The comparison used by `sortPermissions` (the `less` closure handed to
`sort.Slice`): strict lexicographic comparison of the tuple
(topic name, role name, sorted-and-joined allow hosts). -/
def permLt (a b : Permission) : Prop :=
  goStrLt a.topicName b.topicName = true ∨
    (a.topicName = b.topicName ∧
      goStrLt (accessRoleName a.role) (accessRoleName b.role) = true) ∨
    (a.topicName = b.topicName ∧ accessRoleName a.role = accessRoleName b.role ∧
      goStrLt (allowHostsSortedToStr a.allowHosts) (allowHostsSortedToStr b.allowHosts) = true)

/-- The identity tuple by which permissions are ordered. -/
def permKey (p : Permission) : String × String × String :=
  (p.topicName, accessRoleName p.role, allowHostsSortedToStr p.allowHosts)

/-- The non-strict closure of `permLt`: `sort.Slice` with an unstable sort
produces some list sorted with respect to this relation; we embed the sort as
the (stable) insertion sort, a deterministic refinement of it. -/
def permLe (a b : Permission) : Prop :=
  permLt a b ∨ permKey a = permKey b

instance : DecidableRel permLt := fun a b => by
  unfold permLt; infer_instance

instance : DecidableRel permLe := fun a b => by
  unfold permLe; infer_instance

/-- `sortPermissions`. -/
def sortPermissions (permissions : List Permission) : List Permission :=
  List.insertionSort permLe permissions

/-- The loop body of `expandKafkaPermissions`: build each permission (failing
on an invalid role) in input order. -/
def expandKafkaPermissionsList : List PermissionBlock → Except String (List Permission)
  | [] => Except.ok []
  | b :: rest =>
    match parseKafkaPermissionRole b.role with
    | Except.error e => Except.error e
    | Except.ok role =>
      match expandKafkaPermissionsList rest with
      | Except.error e => Except.error e
      | Except.ok ps =>
        Except.ok ({ topicName := b.topic_name, role := role,
                     allowHosts := parseKafkaPermissionAllowHosts b.allow_hosts } :: ps)

/-- `expandKafkaPermissions`: build all permissions, then sort them. -/
def expandKafkaPermissions (ps : List PermissionBlock) : Except String (List Permission) :=
  Except.map sortPermissions (expandKafkaPermissionsList ps)

/-! ## Users and the user diff -/

/-- The API-side `kafka.User` (read path; passwords never returned). -/
structure User where
  name : String
deriving DecidableEq, Repr

/-- The API-side `kafka.UserSpec` (write path). -/
structure UserSpec where
  name : String
  password : String := ""
  permissions : List Permission := []
deriving DecidableEq, Repr

/-- Insertion into a Go `map[string]bool` used as a set (`m[k] = true`),
modelled as a duplicate-free list of keys in insertion order. -/
def insertKey (k : String) (m : List String) : List String :=
  if k ∈ m then m else m ++ [k]

/-- Go `delete(m, k)` on a `map[string]bool` used as a set. -/
def deleteKey (k : String) (m : List String) : List String :=
  m.filter (fun x => x ≠ k)

/-- One step of the loop over the target users in `kafkaUsersDiff`: remove the
name from the pending-delete set, and append the user to the add list when the
name is not a current name. -/
def kafkaUsersDiffStep (m : List String) (st : List String × List UserSpec) (u : UserSpec) :
    List String × List UserSpec :=
  let toDelete := deleteKey u.name st.1
  if u.name ∈ m then (toDelete, st.2) else (toDelete, st.2 ++ [u])

/-- `kafkaUsersDiff`: names to delete (current names never mentioned by the
target list) and full target entries to add (target users whose name is not a
current name). Go iterates the final `toDelete` map in unspecified order; the
embedding returns its keys in insertion order. -/
def kafkaUsersDiff (currUsers : List User) (targetUsers : List UserSpec) :
    List String × List UserSpec :=
  let m := currUsers.foldl (fun acc u => insertKey u.name acc) []
  let toDelete := currUsers.foldl (fun acc u => insertKey u.name acc) []
  targetUsers.foldl (kafkaUsersDiffStep m) (toDelete, [])

/-! ## Maintenance window -/

/-- The `maintenance_window` block of the declarative tree (`present` models
the presence check `d.GetOk("maintenance_window")` on the block list). -/
structure MaintenanceWindowData where
  present : Bool := false
  mwType : Option String := none
  hour : Option Int := none
  day : Option String := none
deriving DecidableEq, Repr

/-- The API-side `kafka.MaintenanceWindow` policy (a protobuf oneof). -/
inductive MaintenanceWindowPolicy where
  | anytime : MaintenanceWindowPolicy
  | weekly (hour : Int) (day : Int) : MaintenanceWindowPolicy
deriving DecidableEq, Repr

/-- `expandKafkaMaintenanceWindow`: no block yields no window; `ANYTIME`
forbids hour and (non-empty) day; `WEEKLY` requires a present hour and a day
found in the day table with a non-zero ordinal; other types fail. (In the
source the `hour != \x22\x22` comparison on the `ANYTIME` path compares an
integer against a string and is therefore always true, so presence of the hour
alone decides.) -/
def expandKafkaMaintenanceWindow (d : MaintenanceWindowData) :
    Except String (Option MaintenanceWindowPolicy) :=
  if d.present = false then Except.ok none
  else
    let typeMW := d.mwType.getD ""
    if typeMW = "ANYTIME" then
      match d.hour with
      | some _ => Except.error "hour should not be set, when using ANYTIME"
      | none =>
        match d.day with
        | some day =>
          if day ≠ "" then Except.error "day should not be set, when using ANYTIME"
          else Except.ok (some MaintenanceWindowPolicy.anytime)
        | none => Except.ok (some MaintenanceWindowPolicy.anytime)
    else if typeMW = "WEEKLY" then
      match d.hour with
      | none => Except.error "hour should be set when using WEEKLY maintenance"
      | some hour =>
        let dayString := d.day.getD ""
        match WeeklyMaintenanceWindow_WeekDay_value dayString with
        | none => Except.error "day value should be one of the seven weekday tokens"
        | some day =>
          if day = 0 then Except.error "day value should be one of the seven weekday tokens"
          else Except.ok (some (MaintenanceWindowPolicy.weekly hour day))
    else Except.error "maintenance_window.0.type should be ANYTIME or WEEKLY"

/-! ## Resources, access, REST API, disk autoscaling -/

/-- One declarative `resources` block. -/
structure ResourcesData where
  resource_preset_id : Option String := none
  disk_size : Option Int := none
  disk_type_id : Option String := none
deriving DecidableEq, Repr

/-- The API-side `kafka.Resources`. -/
structure Resources where
  resourcePresetId : String := ""
  diskSize : Int := 0
  diskTypeId : String := ""
deriving DecidableEq, Repr

/-- Modelled from the spec: `toBytes` (a shared unit helper of the repository
that is not among the vendored sources) converts a gigabyte count to bytes
with the fixed factor 1 GiB = 2 ^ 30 bytes. -/
def toBytes (gigabytes : Int) : Int := gigabytes * 2 ^ 30

/-- Modelled from the spec: `toGigabytes` (the inverse shared unit helper, not
among the vendored sources) divides a byte count by 2 ^ 30. -/
def toGigabytes (bytesCount : Int) : Int := bytesCount / 2 ^ 30

/-- `expandKafkaResources`. -/
def expandKafkaResources (d : ResourcesData) : Resources :=
  { resourcePresetId := d.resource_preset_id.getD ""
    diskSize := (d.disk_size.map toBytes).getD 0
    diskTypeId := d.disk_type_id.getD "" }

/-- The API-side `kafka.Access`. -/
structure Access where
  dataTransfer : Bool := false
deriving DecidableEq, Repr

/-- The API-side `kafka.ConfigSpec_RestAPIConfig`. -/
structure RestAPIConfig where
  enabled : Bool := false
deriving DecidableEq, Repr

/-- The API-side `kafka.DiskSizeAutoscaling`: a byte limit and two percentage
thresholds. -/
structure DiskSizeAutoscaling where
  diskSizeLimit : Int := 0
  plannedUsageThreshold : Int := 0
  emergencyUsageThreshold : Int := 0
deriving DecidableEq, Repr

/-! ## The config spec -/

/-- The `config.0` part of the declarative tree read by
`expandKafkaConfigSpec` (the three `..._exists` flags model
`d.GetOkExists` on the corresponding block). -/
structure ConfigSpecData where
  version : Option String := none
  brokers_count : Option Int := none
  assign_public_ip : Option Bool := none
  schema_registry : Option Bool := none
  zones : Option (List String) := none
  kafka_resources : ResourcesData := {}
  kafka_config : KafkaConfigData := {}
  zookeeper : Option ResourcesData := none
  kraft : Option ResourcesData := none
  access_exists : Bool := false
  access_data_transfer : Option Bool := none
  rest_api_exists : Bool := false
  rest_api_enabled : Option Bool := none
  disk_size_autoscaling_exists : Bool := false
  disk_size_limit : Option Int := none
  planned_usage_threshold : Option Int := none
  emergency_usage_threshold : Option Int := none
deriving DecidableEq, Repr

/-- The `kafka.ConfigSpec_Kafka` oneof: which engine-version config shape is
populated. Both generated shapes (`KafkaConfig2_8` and `KafkaConfig3`) carry
the same scalar field set, which the builders copy verbatim from the
intermediate `KafkaConfig`, so both carry a `KafkaConfig` here. -/
inductive ConfigSpecKafkaConfig where
  | kafkaConfig_2_8 (c : KafkaConfig) : ConfigSpecKafkaConfig
  | kafkaConfig_3 (c : KafkaConfig) : ConfigSpecKafkaConfig
deriving DecidableEq, Repr

/-- The `kafka.ConfigSpec_Kafka` message. -/
structure ConfigSpecKafka where
  resources : Resources := {}
  kafkaConfig : Option ConfigSpecKafkaConfig := none
deriving DecidableEq, Repr

/-- The API-side `kafka.ConfigSpec`. -/
structure ConfigSpec where
  version : String := ""
  brokersCount : Option Int := none
  assignPublicIp : Bool := false
  schemaRegistry : Bool := false
  zoneId : List String := []
  kafka : ConfigSpecKafka := {}
  zookeeper : Option Resources := none
  kraft : Option Resources := none
  access : Option Access := none
  restApiConfig : Option RestAPIConfig := none
  diskSizeAutoscaling : Option DiskSizeAutoscaling := none
deriving DecidableEq, Repr

/-- `expandKafkaConfig2_8`: runs the shared extraction pass; the field-by-field
copy into the 2.8-shaped message is the identity on the shared field set. -/
def expandKafkaConfig2_8 (d : KafkaConfigData) : Except String KafkaConfig :=
  parseKafkaConfig d

/-- `expandKafkaConfig3x`: runs the shared extraction pass; the field-by-field
copy into the 3.x-shaped message is the identity on the shared field set. -/
def expandKafkaConfig3x (d : KafkaConfigData) : Except String KafkaConfig :=
  parseKafkaConfig d

/-- `expandKafkaAccess`: `nil` unless the `access` block exists. -/
def expandKafkaAccess (d : ConfigSpecData) : Option Access :=
  if d.access_exists then
    some { dataTransfer := (d.access_data_transfer).getD false }
  else none

/-- `expandKafkaRestAPI`: `nil` unless the `rest_api` block exists. -/
def expandKafkaRestAPI (d : ConfigSpecData) : Option RestAPIConfig :=
  if d.rest_api_exists then
    some { enabled := (d.rest_api_enabled).getD false }
  else none

/-- `expandKafkaDiskSizeAutoscaling`: `nil` unless the block exists; the
gigabyte → byte conversion is applied to `disk_size_limit` only, the two
thresholds pass through. -/
def expandKafkaDiskSizeAutoscaling (d : ConfigSpecData) : Option DiskSizeAutoscaling :=
  if d.disk_size_autoscaling_exists then
    some { diskSizeLimit := ((d.disk_size_limit).map toBytes).getD 0
           plannedUsageThreshold := (d.planned_usage_threshold).getD 0
           emergencyUsageThreshold := (d.emergency_usage_threshold).getD 0 }
  else none

/-- The version dispatch block of `expandKafkaConfigSpec`: prefix "3" → 3.x
shape, exact "2.8" → 2.8 shape, empty → "must specify" error, anything else →
"not supported" error. -/
def kafkaConfigByVersion (version : String) (kd : KafkaConfigData) :
    Except String ConfigSpecKafkaConfig :=
  if goStartsWith version "3" then
    Except.map ConfigSpecKafkaConfig.kafkaConfig_3 (expandKafkaConfig3x kd)
  else if version = "2.8" then
    Except.map ConfigSpecKafkaConfig.kafkaConfig_2_8 (expandKafkaConfig2_8 kd)
  else if version = "" then
    Except.error "you must specify version of Kafka"
  else
    Except.error "this version of Kafka not supported by Terraform provider"

/-- `expandKafkaConfigSpec`: scalar fields, the version dispatch, then the
optional sub-blocks. -/
def expandKafkaConfigSpec (d : ConfigSpecData) : Except String ConfigSpec :=
  match kafkaConfigByVersion ((d.version).getD "") d.kafka_config with
  | Except.error e => Except.error e
  | Except.ok kafkaConfig =>
    Except.ok {
      version := (d.version).getD ""
      brokersCount := d.brokers_count
      assignPublicIp := (d.assign_public_ip).getD false
      schemaRegistry := (d.schema_registry).getD false
      zoneId := (d.zones).getD []
      kafka := { resources := expandKafkaResources d.kafka_resources
                 kafkaConfig := some kafkaConfig }
      zookeeper := (d.zookeeper).map expandKafkaResources
      kraft := (d.kraft).map expandKafkaResources
      access := expandKafkaAccess d
      restApiConfig := expandKafkaRestAPI d
      diskSizeAutoscaling := expandKafkaDiskSizeAutoscaling d }

/-! ## Flattening -/

/-- A value of the declarative map produced by flattening (`map[string]interface`
values: formatted strings, booleans, string lists). -/
inductive FlatValue where
  | str (s : String) : FlatValue
  | boolVal (b : Bool) : FlatValue
  | strList (l : List String) : FlatValue
deriving DecidableEq, Repr

/-- One conditional entry of the flattened settings map: emitted exactly when
the wrapper is present (`if cfg.GetX() != nil`), formatting the 64-bit value in
base 10. -/
def optIntEntry (key : String) (v : Option Int) : List (String × FlatValue) :=
  match v with
  | some i => [(key, FlatValue.str (toString i))]
  | none => []

/-- A conditional boolean entry of the flattened settings map. -/
def optBoolEntry (key : String) (v : Option Bool) : List (String × FlatValue) :=
  match v with
  | some b => [(key, FlatValue.boolVal b)]
  | none => []

/-- A conditional string-list entry of the flattened settings map. -/
def optStrListEntry (key : String) (v : Option (List String)) : List (String × FlatValue) :=
  match v with
  | some l => [(key, FlatValue.strList l)]
  | none => []

/-- `flattenKafkaConfigSettings`: the shared flattening of both engine-version
config shapes into the declarative `kafka_config` map, modelled as an
association list in the source's emission order (each key emitted at most
once). `log_preallocate` is commented out in the source and therefore never
emitted. -/
def flattenKafkaConfigSettings (c : KafkaConfig) : List (String × FlatValue) :=
  (if c.compressionType ≠ 0 then
    [("compression_type", FlatValue.str (compressionTypeName c.compressionType))]
  else []) ++
  optIntEntry "log_flush_interval_messages" c.logFlushIntervalMessages ++
  optIntEntry "log_flush_interval_ms" c.logFlushIntervalMs ++
  optIntEntry "log_flush_scheduler_interval_ms" c.logFlushSchedulerIntervalMs ++
  optIntEntry "log_retention_bytes" c.logRetentionBytes ++
  optIntEntry "log_retention_hours" c.logRetentionHours ++
  optIntEntry "log_retention_minutes" c.logRetentionMinutes ++
  optIntEntry "log_retention_ms" c.logRetentionMs ++
  optIntEntry "log_segment_bytes" c.logSegmentBytes ++
  optIntEntry "socket_send_buffer_bytes" c.socketSendBufferBytes ++
  optIntEntry "socket_receive_buffer_bytes" c.socketReceiveBufferBytes ++
  optBoolEntry "auto_create_topics_enable" c.autoCreateTopicsEnable ++
  optIntEntry "num_partitions" c.numPartitions ++
  optIntEntry "default_replication_factor" c.defaultReplicationFactor ++
  optIntEntry "message_max_bytes" c.messageMaxBytes ++
  optIntEntry "replica_fetch_max_bytes" c.replicaFetchMaxBytes ++
  optStrListEntry "ssl_cipher_suites" c.sslCipherSuites ++
  optIntEntry "offsets_retention_minutes" c.offsetsRetentionMinutes ++
  optStrListEntry "sasl_enabled_mechanisms"
    (c.saslEnabledMechanisms.map (fun l => l.map saslMechanismName))

/-- The flattened `disk_size_autoscaling` block (a fixed-key map). -/
structure FlatDiskSizeAutoscaling where
  disk_size_limit : Int
  planned_usage_threshold : Int
  emergency_usage_threshold : Int
deriving DecidableEq, Repr

/-- `flattenKafkaDiskSizeAutoscaling`: `nil` for a nil input; otherwise the
byte → gigabyte conversion is applied to `disk_size_limit` only, the two
thresholds pass through. -/
def flattenKafkaDiskSizeAutoscaling (p : Option DiskSizeAutoscaling) :
    Option FlatDiskSizeAutoscaling :=
  match p with
  | none => none
  | some p =>
    some { disk_size_limit := toGigabytes p.diskSizeLimit
           planned_usage_threshold := p.plannedUsageThreshold
           emergency_usage_threshold := p.emergencyUsageThreshold }

/-! ## The fifteen integer-as-string server config parameters, indexed -/

/-- Index of the fifteen optional integer-as-string parameters of the server
`kafka_config` block. -/
inductive KafkaConfigIntField where
  | logFlushIntervalMessages | logFlushIntervalMs | logFlushSchedulerIntervalMs
  | logRetentionBytes | logRetentionHours | logRetentionMinutes | logRetentionMs
  | logSegmentBytes | socketSendBufferBytes | socketReceiveBufferBytes
  | numPartitions | defaultReplicationFactor | messageMaxBytes
  | replicaFetchMaxBytes | offsetsRetentionMinutes
deriving DecidableEq, Repr

/-- The declarative value of an indexed parameter. -/
def fieldInput : KafkaConfigIntField → KafkaConfigData → Option String
  | .logFlushIntervalMessages, d => d.log_flush_interval_messages
  | .logFlushIntervalMs, d => d.log_flush_interval_ms
  | .logFlushSchedulerIntervalMs, d => d.log_flush_scheduler_interval_ms
  | .logRetentionBytes, d => d.log_retention_bytes
  | .logRetentionHours, d => d.log_retention_hours
  | .logRetentionMinutes, d => d.log_retention_minutes
  | .logRetentionMs, d => d.log_retention_ms
  | .logSegmentBytes, d => d.log_segment_bytes
  | .socketSendBufferBytes, d => d.socket_send_buffer_bytes
  | .socketReceiveBufferBytes, d => d.socket_receive_buffer_bytes
  | .numPartitions, d => d.num_partitions
  | .defaultReplicationFactor, d => d.default_replication_factor
  | .messageMaxBytes, d => d.message_max_bytes
  | .replicaFetchMaxBytes, d => d.replica_fetch_max_bytes
  | .offsetsRetentionMinutes, d => d.offsets_retention_minutes

/-- The wrapper of an indexed parameter in the extracted config. -/
def fieldParsed : KafkaConfigIntField → KafkaConfig → Option Int
  | .logFlushIntervalMessages, c => c.logFlushIntervalMessages
  | .logFlushIntervalMs, c => c.logFlushIntervalMs
  | .logFlushSchedulerIntervalMs, c => c.logFlushSchedulerIntervalMs
  | .logRetentionBytes, c => c.logRetentionBytes
  | .logRetentionHours, c => c.logRetentionHours
  | .logRetentionMinutes, c => c.logRetentionMinutes
  | .logRetentionMs, c => c.logRetentionMs
  | .logSegmentBytes, c => c.logSegmentBytes
  | .socketSendBufferBytes, c => c.socketSendBufferBytes
  | .socketReceiveBufferBytes, c => c.socketReceiveBufferBytes
  | .numPartitions, c => c.numPartitions
  | .defaultReplicationFactor, c => c.defaultReplicationFactor
  | .messageMaxBytes, c => c.messageMaxBytes
  | .replicaFetchMaxBytes, c => c.replicaFetchMaxBytes
  | .offsetsRetentionMinutes, c => c.offsetsRetentionMinutes

/-- The declarative map key of an indexed parameter. -/
def fieldKey : KafkaConfigIntField → String
  | .logFlushIntervalMessages => "log_flush_interval_messages"
  | .logFlushIntervalMs => "log_flush_interval_ms"
  | .logFlushSchedulerIntervalMs => "log_flush_scheduler_interval_ms"
  | .logRetentionBytes => "log_retention_bytes"
  | .logRetentionHours => "log_retention_hours"
  | .logRetentionMinutes => "log_retention_minutes"
  | .logRetentionMs => "log_retention_ms"
  | .logSegmentBytes => "log_segment_bytes"
  | .socketSendBufferBytes => "socket_send_buffer_bytes"
  | .socketReceiveBufferBytes => "socket_receive_buffer_bytes"
  | .numPartitions => "num_partitions"
  | .defaultReplicationFactor => "default_replication_factor"
  | .messageMaxBytes => "message_max_bytes"
  | .replicaFetchMaxBytes => "replica_fetch_max_bytes"
  | .offsetsRetentionMinutes => "offsets_retention_minutes"

/-! ## C2: sentinel handling of the enumeration parsers -/

/-- C2 counterexample: the claim states that every enumeration parser of the
layer rejects its "unspecified" sentinel, but the deployment-environment and
permission-access-role parsers accept theirs (returning ordinal 0), even
though each sentinel is indeed a valid wire value of its table. -/
theorem sentinel_not_rejected_counterexample :
    parseKafkaEnv "ENVIRONMENT_UNSPECIFIED" = Except.ok 0 ∧
    Cluster_Environment_value "ENVIRONMENT_UNSPECIFIED" = some 0 ∧
    parseKafkaPermissionRole "ACCESS_ROLE_UNSPECIFIED" = Except.ok 0 ∧
    Permission_AccessRole_value "ACCESS_ROLE_UNSPECIFIED" = some 0 :=
  ⟨rfl, rfl, rfl, rfl⟩

/-- C2 amended: the compression-type, SASL-mechanism and topic-cleanup-policy
parsers reject their "unspecified" sentinel even though it is a valid wire
value of the corresponding table; the deployment-environment and
permission-access-role parsers accept theirs, returning ordinal 0. -/
theorem sentinel_rejection_amended :
    (∃ e, parseKafkaCompression "COMPRESSION_TYPE_UNSPECIFIED" = Except.error e) ∧
    CompressionType_value "COMPRESSION_TYPE_UNSPECIFIED" = some 0 ∧
    (∃ e, parseKafkaSaslMechanism "SASL_MECHANISM_UNSPECIFIED" = Except.error e) ∧
    SaslMechanism_value "SASL_MECHANISM_UNSPECIFIED" = some 0 ∧
    (∃ e, parseKafkaTopicCleanupPolicy "CLEANUP_POLICY_UNSPECIFIED" = Except.error e) ∧
    Topic_CleanupPolicy_value "CLEANUP_POLICY_UNSPECIFIED" = some 0 ∧
    parseKafkaEnv "ENVIRONMENT_UNSPECIFIED" = Except.ok 0 ∧
    parseKafkaPermissionRole "ACCESS_ROLE_UNSPECIFIED" = Except.ok 0 :=
  ⟨⟨_, rfl⟩, rfl, ⟨_, rfl⟩, rfl, ⟨_, rfl⟩, rfl, rfl, rfl⟩

/-! ## C9: empty-string topic parameters are treated as absent -/

/-- C9: a topic-config integer parameter whose declarative value is present
but equal to the empty string is handled exactly like an absent one: the
extractor returns the absent marker and leaves the error slot untouched. -/
theorem empty_string_topic_param_absent :
    ∀ retErr : Option String,
      parseIntTopicConfigParam (some "") retErr = (none, retErr) ∧
      parseIntTopicConfigParam none retErr = (none, retErr) :=
  fun _ => ⟨rfl, rfl⟩

/-- C9 witness: the empty-string case at a concrete error slot. -/
theorem empty_string_topic_param_absent_witness :
    parseIntTopicConfigParam (some "") (some "err") = (none, some "err") ∧
    parseIntTopicConfigParam none (some "err") = (none, some "err") :=
  empty_string_topic_param_absent (some "err")

/-! ## C1: conversion failures are never surfaced -/

/-- A server `kafka_config` block with two malformed integer fields and one
well-formed one. -/
def kafkaConfigDataMalformed : KafkaConfigData :=
  { log_flush_interval_messages := some "not-a-number"
    log_retention_hours := some "12x"
    log_retention_bytes := some "42" }

/-- A `topic_config` block with two malformed integer fields and one
well-formed one. -/
def topicConfigDataMalformed : TopicConfigData :=
  { delete_retention_ms := some "oops"
    flush_ms := some "zzz"
    retention_bytes := some "7" }

/-- C1: the claim (and the spec) say a pass with a failing integer-as-string
conversion returns the first conversion error; the code's guard
`if *retErr != nil` (instead of `== nil`) means `retErr` is never assigned, so
both passes succeed, silently dropping the malformed fields while the
remaining fields are still extracted. -/
theorem conversion_errors_swallowed :
    parseKafkaConfig kafkaConfigDataMalformed =
      Except.ok { logRetentionBytes := some 42 } ∧
    parseKafkaTopicConfig topicConfigDataMalformed =
      Except.ok { retentionBytes := some 7 } :=
  ⟨rfl, rfl⟩

/-! ## C7: disk autoscaling unit conversion -/

/-- C7: flattening converts `disk_size_limit` from bytes to gigabytes
(107374182400 bytes ↦ 100) and passes both usage thresholds through
unchanged; expansion converts only the size limit (gigabytes to bytes) and
passes the thresholds through. -/
theorem disk_autoscaling_unit_conversion :
    (∀ p e : Int,
      flattenKafkaDiskSizeAutoscaling (some
          { diskSizeLimit := 107374182400
            plannedUsageThreshold := p
            emergencyUsageThreshold := e }) =
        some { disk_size_limit := 100
               planned_usage_threshold := p
               emergency_usage_threshold := e }) ∧
    (∀ a : DiskSizeAutoscaling,
      flattenKafkaDiskSizeAutoscaling (some a) =
        some { disk_size_limit := toGigabytes a.diskSizeLimit
               planned_usage_threshold := a.plannedUsageThreshold
               emergency_usage_threshold := a.emergencyUsageThreshold }) ∧
    (∀ d : ConfigSpecData, d.disk_size_autoscaling_exists = true →
      expandKafkaDiskSizeAutoscaling d =
        some { diskSizeLimit := ((d.disk_size_limit).map toBytes).getD 0
               plannedUsageThreshold := (d.planned_usage_threshold).getD 0
               emergencyUsageThreshold := (d.emergency_usage_threshold).getD 0 }) := by
  have h100 : toGigabytes 107374182400 = 100 := by decide
  refine ⟨fun p e => ?_, fun a => rfl, fun d h => ?_⟩
  · simp [flattenKafkaDiskSizeAutoscaling, h100]
  · simp [expandKafkaDiskSizeAutoscaling, h]

/-- C7 witness: a concrete round trip — a declarative block with limit 100 GiB
expands to 107374182400 bytes (thresholds 50 and 70 untouched), and flattening
that payload yields 100 (thresholds untouched). -/
theorem disk_autoscaling_unit_conversion_witness :
    expandKafkaDiskSizeAutoscaling
        { disk_size_autoscaling_exists := true
          disk_size_limit := some 100
          planned_usage_threshold := some 50
          emergency_usage_threshold := some 70 } =
      some { diskSizeLimit := 107374182400
             plannedUsageThreshold := 50
             emergencyUsageThreshold := 70 } ∧
    flattenKafkaDiskSizeAutoscaling (some
        { diskSizeLimit := 107374182400
          plannedUsageThreshold := 50
          emergencyUsageThreshold := 70 }) =
      some { disk_size_limit := 100
             planned_usage_threshold := 50
             emergency_usage_threshold := 70 } := by
  constructor
  · have h := disk_autoscaling_unit_conversion.2.2
      { disk_size_autoscaling_exists := true
        disk_size_limit := some 100
        planned_usage_threshold := some 50
        emergency_usage_threshold := some 70 } rfl
    simpa [toBytes] using h
  · exact disk_autoscaling_unit_conversion.1 50 70

/-! ## C6: maintenance window expansion -/

/-- C6: with a `maintenance_window` block present: `ANYTIME` with an hour set
or a non-empty day set fails; `WEEKLY` with day `MON` and hour 3 produces the
weekly window with day ordinal 1 and hour 3; `WEEKLY` with a day missing from
the day table or mapping to the reserved zero ordinal fails; any other type
token fails. -/
theorem maintenance_window_dispatch :
    ∀ d : MaintenanceWindowData,
      (d.present = true → (d.mwType).getD "" = "ANYTIME" →
        (d.hour ≠ none ∨ (∃ s, d.day = some s ∧ s ≠ "")) →
        ∃ e, expandKafkaMaintenanceWindow d = Except.error e) ∧
      (d.present = true → (d.mwType).getD "" = "WEEKLY" →
        d.hour = some 3 → d.day = some "MON" →
        expandKafkaMaintenanceWindow d =
          Except.ok (some (MaintenanceWindowPolicy.weekly 3 1))) ∧
      (d.present = true → (d.mwType).getD "" = "WEEKLY" →
        (WeeklyMaintenanceWindow_WeekDay_value ((d.day).getD "") = none ∨
          WeeklyMaintenanceWindow_WeekDay_value ((d.day).getD "") = some 0) →
        ∃ e, expandKafkaMaintenanceWindow d = Except.error e) ∧
      (d.present = true → (d.mwType).getD "" ≠ "ANYTIME" →
        (d.mwType).getD "" ≠ "WEEKLY" →
        expandKafkaMaintenanceWindow d =
          Except.error "maintenance_window.0.type should be ANYTIME or WEEKLY") := by
  intro d
  refine ⟨?_, ?_, ?_, ?_⟩
  · intro hp ht hcase
    cases hhour : d.hour with
    | some h =>
      exact ⟨"hour should not be set, when using ANYTIME",
        by simp [expandKafkaMaintenanceWindow, hp, ht, hhour]⟩
    | none =>
      rcases hcase with hhour2 | ⟨s, hday, hs⟩
      · exact absurd hhour hhour2
      · exact ⟨"day should not be set, when using ANYTIME",
          by simp [expandKafkaMaintenanceWindow, hp, ht, hhour, hday, hs]⟩
  · intro hp ht hh hd
    simp [expandKafkaMaintenanceWindow, hp, ht, hh, hd, WeeklyMaintenanceWindow_WeekDay_value]
  · intro hp ht hday
    cases hhour : d.hour with
    | none =>
      exact ⟨"hour should be set when using WEEKLY maintenance",
        by simp [expandKafkaMaintenanceWindow, hp, ht, hhour]⟩
    | some h =>
      rcases hday with hd | hd
      · exact ⟨"day value should be one of the seven weekday tokens",
          by simp [expandKafkaMaintenanceWindow, hp, ht, hhour, hd]⟩
      · exact ⟨"day value should be one of the seven weekday tokens",
          by simp [expandKafkaMaintenanceWindow, hp, ht, hhour, hd]⟩
  · intro hp h1 h2
    simp [expandKafkaMaintenanceWindow, hp, h1, h2]

/-- C6 witness: concrete instances — a `WEEKLY` window with day `MON`, hour 3
expands to the weekly policy (1, 3); an `ANYTIME` window with an hour set is
rejected; an unknown type token is rejected. -/
theorem maintenance_window_dispatch_witness :
    expandKafkaMaintenanceWindow
        { present := true, mwType := some "WEEKLY", hour := some 3, day := some "MON" } =
      Except.ok (some (MaintenanceWindowPolicy.weekly 3 1)) ∧
    (∃ e, expandKafkaMaintenanceWindow
        { present := true, mwType := some "ANYTIME", hour := some 5 } = Except.error e) ∧
    expandKafkaMaintenanceWindow
        { present := true, mwType := some "MONTHLY" } =
      Except.error "maintenance_window.0.type should be ANYTIME or WEEKLY" := by
  refine ⟨?_, ?_, ?_⟩
  · exact (maintenance_window_dispatch _).2.1 rfl rfl rfl rfl
  · exact (maintenance_window_dispatch _).1 rfl rfl (Or.inl (by simp))
  · exact (maintenance_window_dispatch _).2.2.2 rfl (by simp) (by simp)

/-! ## C3: version dispatch of the config spec -/

/-- C3: version `2.8` populates the 2.8-shaped Kafka config, a version with
prefix `3` populates the 3.x-shaped config (in both cases the oneof holds
exactly that one shape on success), an empty version fails with the
"must specify version" error, and any other version fails with the
"not supported" error. -/
theorem version_dispatch :
    ∀ d : ConfigSpecData,
      (((d.version).getD "" = "2.8") →
        ∀ r, expandKafkaConfigSpec d = Except.ok r →
          ∃ c, r.kafka.kafkaConfig = some (ConfigSpecKafkaConfig.kafkaConfig_2_8 c)) ∧
      ((goStartsWith ((d.version).getD "") "3" = true) →
        ∀ r, expandKafkaConfigSpec d = Except.ok r →
          ∃ c, r.kafka.kafkaConfig = some (ConfigSpecKafkaConfig.kafkaConfig_3 c)) ∧
      (((d.version).getD "" = "") →
        expandKafkaConfigSpec d = Except.error "you must specify version of Kafka") ∧
      (((d.version).getD "" ≠ "") → ((d.version).getD "" ≠ "2.8") →
        (goStartsWith ((d.version).getD "") "3" = false) →
        expandKafkaConfigSpec d =
          Except.error "this version of Kafka not supported by Terraform provider") := by
  have h28 : ∀ kd, kafkaConfigByVersion "2.8" kd =
      Except.map ConfigSpecKafkaConfig.kafkaConfig_2_8 (parseKafkaConfig kd) := fun kd => rfl
  have h3x : ∀ v kd, goStartsWith v "3" = true → kafkaConfigByVersion v kd =
      Except.map ConfigSpecKafkaConfig.kafkaConfig_3 (parseKafkaConfig kd) := by
    intro v kd h
    simp [kafkaConfigByVersion, h, expandKafkaConfig3x]
  have hother : ∀ v kd, v ≠ "" → v ≠ "2.8" → goStartsWith v "3" = false →
      kafkaConfigByVersion v kd =
        Except.error "this version of Kafka not supported by Terraform provider" := by
    intro v kd h1 h2 h3
    simp [kafkaConfigByVersion, h1, h2, h3]
  intro d
  refine ⟨?_, ?_, ?_, ?_⟩
  · intro hv r hok
    unfold expandKafkaConfigSpec at hok
    rw [hv, h28] at hok
    cases hp : parseKafkaConfig d.kafka_config with
    | error e => rw [hp] at hok; exact absurd hok (by simp [Except.map])
    | ok c =>
      rw [hp] at hok
      simp only [Except.map, Except.ok.injEq] at hok
      exact ⟨c, by rw [← hok]⟩
  · intro hv r hok
    unfold expandKafkaConfigSpec at hok
    rw [h3x _ _ hv] at hok
    cases hp : parseKafkaConfig d.kafka_config with
    | error e => rw [hp] at hok; exact absurd hok (by simp [Except.map])
    | ok c =>
      rw [hp] at hok
      simp only [Except.map, Except.ok.injEq] at hok
      exact ⟨c, by rw [← hok]⟩
  · intro hv
    unfold expandKafkaConfigSpec
    rw [hv]
    rfl
  · intro h1 h2 h3
    unfold expandKafkaConfigSpec
    rw [hother _ _ h1 h2 h3]

/-- C3 witness: a minimal declarative config with version `2.8` expands
successfully and the produced oneof holds the 2.8 shape. -/
theorem version_dispatch_witness :
    ∃ r, expandKafkaConfigSpec { version := some "2.8" } = Except.ok r ∧
      ∃ c, r.kafka.kafkaConfig = some (ConfigSpecKafkaConfig.kafkaConfig_2_8 c) := by
  refine ⟨{ version := "2.8",
            kafka := { kafkaConfig := some (ConfigSpecKafkaConfig.kafkaConfig_2_8 {}) } },
          rfl, ?_⟩
  exact (version_dispatch { version := some "2.8" }).1 rfl _ rfl

/-! ## C5 and C10: the user diff -/

lemma mem_insertKey {x k : String} {m : List String} :
    x ∈ insertKey k m ↔ x ∈ m ∨ x = k := by
  by_cases hk : k ∈ m
  · simp only [insertKey, if_pos hk]
    constructor
    · exact Or.inl
    · rintro (hx | rfl)
      · exact hx
      · exact hk
  · simp [insertKey, hk]

lemma mem_insertKeyFold (us : List User) (acc : List String) (x : String) :
    x ∈ us.foldl (fun a u => insertKey u.name a) acc ↔ x ∈ acc ∨ x ∈ us.map User.name := by
  induction us generalizing acc with
  | nil => simp
  | cons u us ih =>
    simp only [List.foldl_cons, List.map_cons, List.mem_cons]
    rw [ih, mem_insertKey]
    tauto

lemma usersDiffFoldl (m : List String) (ts : List UserSpec) (D : List String) (A : List UserSpec) :
    ts.foldl (kafkaUsersDiffStep m) (D, A) =
      (D.filter (fun n => decide (n ∉ ts.map UserSpec.name)),
       A ++ ts.filter (fun u => decide (u.name ∉ m))) := by
  induction ts generalizing D A with
  | nil => simp
  | cons t ts ih =>
    simp only [List.foldl_cons]
    have hstep : kafkaUsersDiffStep m (D, A) t =
        (deleteKey t.name D, if t.name ∈ m then A else A ++ [t]) := by
      unfold kafkaUsersDiffStep
      by_cases hm : t.name ∈ m <;> simp [hm]
    rw [hstep]
    by_cases hm : t.name ∈ m
    · rw [if_pos hm, ih]
      refine Prod.ext ?_ ?_
      · show (deleteKey t.name D).filter _ = D.filter _
        unfold deleteKey
        rw [@List.filter_filter _ _ _ D]
        refine List.filter_congr ?_
        intro n _
        by_cases h1 : n = t.name <;> by_cases h2 : n ∈ ts.map UserSpec.name <;>
          simp [h1, h2]
      · show A ++ _ = A ++ _
        congr 1
        rw [List.filter_cons]
        simp [hm]
    · rw [if_neg hm, ih]
      refine Prod.ext ?_ ?_
      · show (deleteKey t.name D).filter _ = D.filter _
        unfold deleteKey
        rw [@List.filter_filter _ _ _ D]
        refine List.filter_congr ?_
        intro n _
        by_cases h1 : n = t.name <;> by_cases h2 : n ∈ ts.map UserSpec.name <;>
          simp [h1, h2]
      · show (A ++ [t]) ++ _ = A ++ _
        rw [List.filter_cons]
        simp [hm, List.append_assoc]

/-- The two components of `kafkaUsersDiff`, in closed form. -/
lemma kafkaUsersDiff_eq (currUsers : List User) (targetUsers : List UserSpec) :
    kafkaUsersDiff currUsers targetUsers =
      ((currUsers.foldl (fun a u => insertKey u.name a) []).filter
          (fun n => decide (n ∉ targetUsers.map UserSpec.name)),
       targetUsers.filter (fun u => decide (u.name ∉ currUsers.map User.name))) := by
  unfold kafkaUsersDiff
  rw [usersDiffFoldl]
  refine Prod.ext rfl ?_
  show List.nil ++ _ = _
  rw [List.nil_append]
  refine List.filter_congr ?_
  intro u _
  by_cases h : u.name ∈ currUsers.map User.name
  · have h2 : u.name ∈ currUsers.foldl (fun a u => insertKey u.name a) [] := by
      rw [mem_insertKeyFold]; exact Or.inr h
    simp [h, h2]
  · have h2 : u.name ∉ currUsers.foldl (fun a u => insertKey u.name a) [] := by
      rw [mem_insertKeyFold]; simpa using h
    simp [h, h2]

/-- C5: the diff matches solely by name — the delete component consists
exactly of the names occurring in the current list and not among the target
names, and the add component is exactly the sublist of full target entries
whose name is not a current name. -/
theorem users_diff_by_name :
    ∀ (currUsers : List User) (targetUsers : List UserSpec),
      (∀ n, n ∈ (kafkaUsersDiff currUsers targetUsers).1 ↔
        (n ∈ currUsers.map User.name ∧ n ∉ targetUsers.map UserSpec.name)) ∧
      (kafkaUsersDiff currUsers targetUsers).2 =
        targetUsers.filter (fun u => decide (u.name ∉ currUsers.map User.name)) := by
  intro currUsers targetUsers
  rw [kafkaUsersDiff_eq]
  refine ⟨?_, rfl⟩
  intro n
  rw [List.mem_filter, mem_insertKeyFold]
  simp

/-- C5 witness: with current users {A, B} and target users {B, C}, the delete
set is exactly {A} and the add set is exactly C's full entry. -/
theorem users_diff_by_name_witness :
    kafkaUsersDiff [{ name := "A" }, { name := "B" }]
        [{ name := "B", password := "pb" }, { name := "C", password := "pc" }] =
      (["A"], [{ name := "C", password := "pc" }]) ∧
    ("A" ∈ (kafkaUsersDiff [{ name := "A" }, { name := "B" }]
        [{ name := "B", password := "pb" }, { name := "C", password := "pc" }]).1 ↔
      ("A" ∈ ([{ name := "A" }, { name := "B" }] : List User).map User.name ∧
        "A" ∉ ([{ name := "B", password := "pb" }, { name := "C", password := "pc" }] :
          List UserSpec).map UserSpec.name)) := by
  constructor
  · rfl
  · exact (users_diff_by_name [{ name := "A" }, { name := "B" }]
      [{ name := "B", password := "pb" }, { name := "C", password := "pc" }]).1 "A"

/-- C10: the delete and add components are disjoint by name, every deleted
name occurs among the current names, and every added entry is one of the
target entries. -/
theorem users_diff_components_sound :
    ∀ (currUsers : List User) (targetUsers : List UserSpec),
      (∀ n, n ∈ (kafkaUsersDiff currUsers targetUsers).1 →
        n ∉ ((kafkaUsersDiff currUsers targetUsers).2.map UserSpec.name)) ∧
      (∀ n, n ∈ (kafkaUsersDiff currUsers targetUsers).1 →
        n ∈ currUsers.map User.name) ∧
      (∀ u, u ∈ (kafkaUsersDiff currUsers targetUsers).2 → u ∈ targetUsers) := by
  intro currUsers targetUsers
  have h := users_diff_by_name currUsers targetUsers
  refine ⟨?_, ?_, ?_⟩
  · intro n hn hmem
    obtain ⟨u, hu, hname⟩ := List.mem_map.mp hmem
    rw [h.2] at hu
    have hn2 := (h.1 n).mp hn
    have hu2 := (List.mem_filter.mp hu).2
    rw [hname] at hu2
    simp only [decide_eq_true_eq] at hu2
    exact hu2 hn2.1
  · intro n hn
    exact ((h.1 n).mp hn).1
  · intro u hu
    rw [h.2] at hu
    exact (List.mem_filter.mp hu).1

/-- C10 witness: for current {A, B} and target {B, C}, the deleted name A is
not among the added names, A is a current name, and the added entry is a
target entry. -/
theorem users_diff_components_sound_witness :
    "A" ∉ ((kafkaUsersDiff [{ name := "A" }, { name := "B" }]
        [{ name := "B" }, { name := "C" }]).2.map UserSpec.name) ∧
    "A" ∈ ([{ name := "A" }, { name := "B" }] : List User).map User.name ∧
    ({ name := "C" } : UserSpec) ∈ ([{ name := "B" }, { name := "C" }] : List UserSpec) := by
  have h := users_diff_components_sound [{ name := "A" }, { name := "B" }]
    [{ name := "B" }, { name := "C" }]
  refine ⟨h.1 "A" (by decide), h.2.1 "A" (by decide), h.2.2 { name := "C" } (by decide)⟩

/-! ## C8: optional scalar fields never degrade to explicit zeros -/

lemma fst_parseIntKafkaConfigParam (v : Option String) (r : Option String) :
    (parseIntKafkaConfigParam v r).1 = (parseIntKafkaConfigParam v none).1 := by
  cases v with
  | none => rfl
  | some s =>
    cases hgp : goParseInt64 s with
    | ok i => simp [parseIntKafkaConfigParam, hgp]
    | error e =>
      by_cases hr : r.isSome <;> simp [parseIntKafkaConfigParam, hgp, hr]

/-- Inversion of a successful server config pass: each of the fifteen integer
fields of the result is exactly what its own extractor produced. -/
lemma parseKafkaConfig_ok_fieldParsed (d : KafkaConfigData) (cfg : KafkaConfig)
    (h : parseKafkaConfig d = Except.ok cfg) (f : KafkaConfigIntField) :
    fieldParsed f cfg = (parseIntKafkaConfigParam (fieldInput f d) none).1 := by
  simp only [parseKafkaConfig] at h
  split at h
  · exact absurd h (by simp)
  · split at h
    · exact absurd h (by simp)
    · split at h
      · exact absurd h (by simp)
      · rw [Except.ok.injEq] at h
        subst h
        cases f <;> simp [fieldParsed, fieldInput, fst_parseIntKafkaConfigParam]

lemma mem_optIntEntry {p : String × FlatValue} {k : String} {o : Option Int} :
    p ∈ optIntEntry k o ↔ ∃ i, o = some i ∧ p = (k, FlatValue.str (toString i)) := by
  cases o <;> simp [optIntEntry]

lemma mem_optBoolEntry {p : String × FlatValue} {k : String} {o : Option Bool} :
    p ∈ optBoolEntry k o ↔ ∃ b, o = some b ∧ p = (k, FlatValue.boolVal b) := by
  cases o <;> simp [optBoolEntry]

lemma mem_optStrListEntry {p : String × FlatValue} {k : String} {o : Option (List String)} :
    p ∈ optStrListEntry k o ↔ ∃ l, o = some l ∧ p = (k, FlatValue.strList l) := by
  cases o <;> simp [optStrListEntry]

lemma mem_ite_singleton {c : Prop} [Decidable c] {p x : String × FlatValue} :
    (p ∈ if c then [x] else []) ↔ c ∧ p = x := by
  by_cases h : c <;> simp [h]

/-- An entry under an indexed integer parameter's key occurs in the flattened
settings map exactly when the wrapper is present, and then carries the
formatted value. -/
lemma mem_flatten_intKey (f : KafkaConfigIntField) (c : KafkaConfig) (v : FlatValue) :
    ((fieldKey f, v) ∈ flattenKafkaConfigSettings c) ↔
      ∃ i, fieldParsed f c = some i ∧ v = FlatValue.str (toString i) := by
  cases f <;>
    simp [flattenKafkaConfigSettings, fieldKey, fieldParsed, List.mem_append,
      mem_optIntEntry, mem_optBoolEntry, mem_optStrListEntry, mem_ite_singleton,
      Prod.mk.injEq]

/-- C8: for each of the fifteen optional integer-as-string parameters: absence
in the declarative tree yields the absent wrapper (never an explicit zero);
flattening omits the key of an absent wrapper; and a present wrapper
(zero included) yields the key with the formatted value. -/
theorem scalar_field_optionality :
    ∀ (f : KafkaConfigIntField) (d : KafkaConfigData) (cfg : KafkaConfig),
      parseKafkaConfig d = Except.ok cfg →
      (fieldInput f d = none → fieldParsed f cfg = none) ∧
      (fieldParsed f cfg = none →
        ∀ v, (fieldKey f, v) ∉ flattenKafkaConfigSettings cfg) ∧
      (∀ i, fieldParsed f cfg = some i →
        (fieldKey f, FlatValue.str (toString i)) ∈ flattenKafkaConfigSettings cfg) := by
  intro f d cfg h
  refine ⟨?_, ?_, ?_⟩
  · intro hin
    rw [parseKafkaConfig_ok_fieldParsed d cfg h f, hin]
    rfl
  · intro habs v hmem
    rw [mem_flatten_intKey] at hmem
    obtain ⟨i, hi, _⟩ := hmem
    rw [habs] at hi
    cases hi
  · intro i hi
    rw [mem_flatten_intKey]
    exact ⟨i, hi, rfl⟩

/-- C8 witness: in a config where `log_retention_ms` is absent and
`log_retention_bytes` is the string "0", the pass yields an absent wrapper for
the former and an explicit zero wrapper for the latter; flattening omits the
former key and emits the latter with value "0". -/
theorem scalar_field_optionality_witness :
    (∃ cfg, parseKafkaConfig { log_retention_bytes := some "0" } = Except.ok cfg ∧
      cfg.logRetentionMs = none ∧ cfg.logRetentionBytes = some 0 ∧
      (∀ v, ("log_retention_ms", v) ∉ flattenKafkaConfigSettings cfg) ∧
      ("log_retention_bytes", FlatValue.str "0") ∈ flattenKafkaConfigSettings cfg) := by
  refine ⟨{ logRetentionBytes := some 0 }, rfl, rfl, rfl, ?_, ?_⟩
  · exact (scalar_field_optionality KafkaConfigIntField.logRetentionMs
      { log_retention_bytes := some "0" } { logRetentionBytes := some 0 } rfl).2.1 rfl
  · exact (scalar_field_optionality KafkaConfigIntField.logRetentionBytes
      { log_retention_bytes := some "0" } { logRetentionBytes := some 0 } rfl).2.2 0 rfl

/-! ## C4: order lemmas for the byte-wise string comparison -/

lemma charListLt_irrefl : ∀ as, charListLt as as = false
  | [] => rfl
  | a :: as => by simp [charListLt, charListLt_irrefl as]

lemma charListLt_trans :
    ∀ as bs cs, charListLt as bs = true → charListLt bs cs = true →
      charListLt as cs = true := by
  intro as
  induction as with
  | nil =>
    intro bs cs h1 h2
    cases bs with
    | nil => exact absurd h1 (by simp [charListLt])
    | cons b bs =>
      cases cs with
      | nil => exact absurd h2 (by simp [charListLt])
      | cons c cs => rfl
  | cons a as ih =>
    intro bs cs h1 h2
    cases bs with
    | nil => exact absurd h1 (by simp [charListLt])
    | cons b bs =>
      cases cs with
      | nil => exact absurd h2 (by simp [charListLt])
      | cons c cs =>
        by_cases hab : a = b <;> by_cases hbc : b = c
        · subst hab; subst hbc
          simp only [charListLt, if_pos rfl] at h1 h2 ⊢
          exact ih bs cs h1 h2
        · subst hab
          simp only [charListLt, if_pos rfl, if_neg hbc] at h2
          have hlt : a < c := of_decide_eq_true h2
          simp [charListLt, ne_of_lt hlt, hlt]
        · subst hbc
          simp only [charListLt, if_neg hab] at h1
          have hlt : a < b := of_decide_eq_true h1
          simp [charListLt, ne_of_lt hlt, hlt]
        · simp only [charListLt, if_neg hab] at h1
          simp only [charListLt, if_neg hbc] at h2
          have hlt : a < c := lt_trans (of_decide_eq_true h1) (of_decide_eq_true h2)
          simp [charListLt, ne_of_lt hlt, hlt]

lemma charListLt_asymm :
    ∀ as bs, charListLt as bs = true → charListLt bs as = false := by
  intro as
  induction as with
  | nil =>
    intro bs h
    cases bs with
    | nil => exact absurd h (by simp [charListLt])
    | cons b bs => rfl
  | cons a as ih =>
    intro bs h
    cases bs with
    | nil => exact absurd h (by simp [charListLt])
    | cons b bs =>
      by_cases hab : a = b
      · subst hab
        simp only [charListLt, if_pos rfl] at h ⊢
        exact ih bs h
      · simp only [charListLt, if_neg hab] at h
        have hlt : a < b := of_decide_eq_true h
        simp [charListLt, (ne_of_lt hlt).symm, lt_asymm hlt]

lemma charListLt_of_ne :
    ∀ as bs, as ≠ bs → charListLt as bs = true ∨ charListLt bs as = true := by
  intro as
  induction as with
  | nil =>
    intro bs hne
    cases bs with
    | nil => exact absurd rfl hne
    | cons b bs => exact Or.inl rfl
  | cons a as ih =>
    intro bs hne
    cases bs with
    | nil => exact Or.inr rfl
    | cons b bs =>
      by_cases hab : a = b
      · subst hab
        have hne2 : as ≠ bs := fun h => hne (by rw [h])
        rcases ih bs hne2 with h | h
        · exact Or.inl (by simp [charListLt, h])
        · exact Or.inr (by simp [charListLt, h])
      · rcases lt_or_gt_of_ne hab with hlt | hlt
        · exact Or.inl (by simp [charListLt, hab, hlt])
        · exact Or.inr (by simp [charListLt, Ne.symm hab, hlt])

lemma stringToList_inj {a b : String} (h : a.toList = b.toList) : a = b := by
  cases a; cases b
  simp only [String.toList] at h
  rw [h]

lemma goStrLt_irrefl (a : String) : goStrLt a a = false :=
  charListLt_irrefl a.toList

lemma goStrLt_trans {a b c : String} (h1 : goStrLt a b = true) (h2 : goStrLt b c = true) :
    goStrLt a c = true :=
  charListLt_trans a.toList b.toList c.toList h1 h2

lemma goStrLt_asymm {a b : String} (h : goStrLt a b = true) : goStrLt b a = false :=
  charListLt_asymm a.toList b.toList h

lemma goStrLt_of_ne {a b : String} (h : a ≠ b) :
    goStrLt a b = true ∨ goStrLt b a = true :=
  charListLt_of_ne a.toList b.toList (fun hl => h (stringToList_inj hl))

/-! ## C4: the lexicographic triple order behind `sortPermissions` -/

/-- Strict lexicographic comparison of identity triples. -/
def strTripleLt (x y : String × String × String) : Prop :=
  goStrLt x.1 y.1 = true ∨ (x.1 = y.1 ∧ goStrLt x.2.1 y.2.1 = true) ∨
    (x.1 = y.1 ∧ x.2.1 = y.2.1 ∧ goStrLt x.2.2 y.2.2 = true)

lemma permLt_iff_key (a b : Permission) :
    permLt a b ↔ strTripleLt (permKey a) (permKey b) :=
  Iff.rfl

lemma strTripleLt_trans {x y z : String × String × String}
    (h1 : strTripleLt x y) (h2 : strTripleLt y z) : strTripleLt x z := by
  obtain ⟨x1, x2, x3⟩ := x
  obtain ⟨y1, y2, y3⟩ := y
  obtain ⟨z1, z2, z3⟩ := z
  simp only [strTripleLt] at h1 h2 ⊢
  rcases h1 with h | ⟨e1, h⟩ | ⟨e1, e2, h⟩ <;>
    rcases h2 with g | ⟨f1, g⟩ | ⟨f1, f2, g⟩
  · exact Or.inl (goStrLt_trans h g)
  · exact Or.inl (by rw [← f1]; exact h)
  · exact Or.inl (by rw [← f1]; exact h)
  · exact Or.inl (by rw [e1]; exact g)
  · exact Or.inr (Or.inl ⟨e1.trans f1, goStrLt_trans h g⟩)
  · exact Or.inr (Or.inl ⟨e1.trans f1, by rw [← f2]; exact h⟩)
  · exact Or.inl (by rw [e1]; exact g)
  · exact Or.inr (Or.inl ⟨e1.trans f1, by rw [e2]; exact g⟩)
  · exact Or.inr (Or.inr ⟨e1.trans f1, e2.trans f2, goStrLt_trans h g⟩)

lemma strTripleLt_irrefl {x : String × String × String} (h : strTripleLt x x) : False := by
  obtain ⟨x1, x2, x3⟩ := x
  rcases h with h | ⟨_, h⟩ | ⟨_, _, h⟩ <;> simp [goStrLt_irrefl] at h

lemma strTripleLt_of_ne {x y : String × String × String} (h : x ≠ y) :
    strTripleLt x y ∨ strTripleLt y x := by
  obtain ⟨x1, x2, x3⟩ := x
  obtain ⟨y1, y2, y3⟩ := y
  by_cases h1 : x1 = y1
  · subst h1
    by_cases h2 : x2 = y2
    · subst h2
      have h3 : x3 ≠ y3 := by simpa using h
      rcases goStrLt_of_ne h3 with hlt | hlt
      · exact Or.inl (Or.inr (Or.inr ⟨rfl, rfl, hlt⟩))
      · exact Or.inr (Or.inr (Or.inr ⟨rfl, rfl, hlt⟩))
    · rcases goStrLt_of_ne h2 with hlt | hlt
      · exact Or.inl (Or.inr (Or.inl ⟨rfl, hlt⟩))
      · exact Or.inr (Or.inr (Or.inl ⟨rfl, hlt⟩))
  · rcases goStrLt_of_ne h1 with hlt | hlt
    · exact Or.inl (Or.inl hlt)
    · exact Or.inr (Or.inl hlt)

instance : IsTotal Permission permLe where
  total a b := by
    by_cases hk : permKey a = permKey b
    · exact Or.inl (Or.inr hk)
    · rcases strTripleLt_of_ne hk with h | h
      · exact Or.inl (Or.inl ((permLt_iff_key a b).mpr h))
      · exact Or.inr (Or.inl ((permLt_iff_key b a).mpr h))

instance : IsTrans Permission permLe where
  trans a b c hab hbc := by
    rcases hab with hab | hab <;> rcases hbc with hbc | hbc
    · exact Or.inl ((permLt_iff_key a c).mpr
        (strTripleLt_trans ((permLt_iff_key a b).mp hab) ((permLt_iff_key b c).mp hbc)))
    · exact Or.inl ((permLt_iff_key a c).mpr (hbc ▸ (permLt_iff_key a b).mp hab))
    · exact Or.inl ((permLt_iff_key a c).mpr (hab ▸ (permLt_iff_key b c).mp hbc))
    · exact Or.inr (hab.trans hbc)

lemma permKey_eq_of_le_le {a b : Permission} (hab : permLe a b) (hba : permLe b a) :
    permKey a = permKey b := by
  rcases hab with hab | hab
  · rcases hba with hba | hba
    · exact absurd ((permLt_iff_key b a).mp hba)
        (by intro h; exact strTripleLt_irrefl (strTripleLt_trans ((permLt_iff_key a b).mp hab) h))
    · exact hba.symm
  · exact hab

/-! ## C4: permission expansion and order independence -/

/-- Two sorted permutations of each other agree when no two distinct elements
share the identity triple (the relation `permLe` is antisymmetric only up to
`permKey`). -/
lemma sorted_perm_eq_of_injKeys :
    ∀ (l₁ l₂ : List Permission), l₁.Perm l₂ →
      List.Sorted permLe l₁ → List.Sorted permLe l₂ →
      (∀ a ∈ l₁, ∀ b ∈ l₁, permKey a = permKey b → a = b) → l₁ = l₂ := by
  intro l₁
  induction l₁ with
  | nil =>
    intro l₂ hp _ _ _
    exact (List.Perm.eq_nil hp.symm).symm
  | cons a t ih =>
    intro l₂ hp hs₁ hs₂ hinj
    cases l₂ with
    | nil => exact absurd (List.Perm.eq_nil hp) (by simp)
    | cons b t₂ =>
      have hab : a = b := by
        by_contra hne
        have hbl : b ∈ a :: t := hp.symm.subset (List.mem_cons_self b t₂)
        have hal : a ∈ b :: t₂ := hp.subset (List.mem_cons_self a t)
        have hb_t : b ∈ t := by
          rcases List.mem_cons.mp hbl with h | h
          · exact absurd h.symm hne
          · exact h
        have ha_t₂ : a ∈ t₂ := by
          rcases List.mem_cons.mp hal with h | h
          · exact absurd h hne
          · exact h
        have h₁ : permLe a b := (List.sorted_cons.mp hs₁).1 b hb_t
        have h₂ : permLe b a := (List.sorted_cons.mp hs₂).1 a ha_t₂
        exact hne (hinj a (List.mem_cons_self a t) b (List.mem_cons_of_mem a hb_t)
          (permKey_eq_of_le_le h₁ h₂))
      subst hab
      have hp' : t.Perm t₂ := hp.cons_inv
      have ht : t = t₂ := by
        refine ih t₂ hp' (List.sorted_cons.mp hs₁).2 (List.sorted_cons.mp hs₂).2 ?_
        intro x hx y hy hk
        exact hinj x (List.mem_cons_of_mem a hx) y (List.mem_cons_of_mem a hy) hk
      rw [ht]

/-- The permission one declarative block expands to (assuming its role is
valid). -/
def blockToPermission (b : PermissionBlock) : Permission :=
  { topicName := b.topic_name
    role := (Permission_AccessRole_value b.role).getD 0
    allowHosts := parseKafkaPermissionAllowHosts b.allow_hosts }

lemma parseKafkaPermissionRole_ok {e : String} {v : Int}
    (h : parseKafkaPermissionRole e = Except.ok v) :
    Permission_AccessRole_value e = some v := by
  unfold parseKafkaPermissionRole at h
  cases hv : Permission_AccessRole_value e with
  | some w =>
    rw [hv] at h
    simp only [Except.ok.injEq] at h
    rw [h]
  | none =>
    rw [hv] at h
    exact absurd h (by simp)

lemma expandKafkaPermissionsList_ok :
    ∀ (bs : List PermissionBlock) (l : List Permission),
      expandKafkaPermissionsList bs = Except.ok l → l = bs.map blockToPermission := by
  intro bs
  induction bs with
  | nil =>
    intro l h
    simp only [expandKafkaPermissionsList, Except.ok.injEq] at h
    simp [← h]
  | cons b bs ih =>
    intro l h
    unfold expandKafkaPermissionsList at h
    cases hr : parseKafkaPermissionRole b.role with
    | error e => rw [hr] at h; exact absurd h (by simp)
    | ok v =>
      rw [hr] at h
      cases hrec : expandKafkaPermissionsList bs with
      | error e => rw [hrec] at h; exact absurd h (by simp)
      | ok ps =>
        rw [hrec] at h
        simp only [Except.ok.injEq] at h
        rw [← h, List.map_cons, ← ih ps hrec]
        congr 1
        simp [blockToPermission, parseKafkaPermissionRole_ok hr]

/-- C4 counterexample inputs: two distinct permission blocks whose identity
triples coincide, because joining sorted hosts with commas conflates the host
set producing the joined string "a,b" with the single host "a,b". -/
def permBlockHostsComma : PermissionBlock :=
  { topic_name := "t", role := "ACCESS_ROLE_PRODUCER", allow_hosts := ["a,b"] }

/-- The companion block with the two hosts "a" and "b". -/
def permBlockHostsSplit : PermissionBlock :=
  { topic_name := "t", role := "ACCESS_ROLE_PRODUCER", allow_hosts := ["a", "b"] }

/-- The expansion of `permBlockHostsComma`. -/
def permHostsComma : Permission :=
  { topicName := "t", role := 1, allowHosts := ["a,b"] }

/-- The expansion of `permBlockHostsSplit`. -/
def permHostsSplit : Permission :=
  { topicName := "t", role := 1, allowHosts := ["a", "b"] }

/-- C4 counterexample: the two permutations of this two-block input expand to
different output lists (the tied elements keep their input order), so
expansion is not order-independent as stated. -/
theorem permissions_order_dependent_counterexample :
    ([permBlockHostsComma, permBlockHostsSplit] : List PermissionBlock).Perm
        [permBlockHostsSplit, permBlockHostsComma] ∧
    expandKafkaPermissions [permBlockHostsComma, permBlockHostsSplit] =
      Except.ok [permHostsComma, permHostsSplit] ∧
    expandKafkaPermissions [permBlockHostsSplit, permBlockHostsComma] =
      Except.ok [permHostsSplit, permHostsComma] ∧
    [permHostsComma, permHostsSplit] ≠ [permHostsSplit, permHostsComma] := by
  refine ⟨List.Perm.swap permBlockHostsSplit permBlockHostsComma [], rfl, rfl, by decide⟩

/-- C4 amended: permission expansion is order-independent up to the sort key —
any two permutations of the input expand (when all roles are valid) to lists
that are permutations of each other and both sorted by the
(topic_name, role name, comma-joined sorted allow_hosts) triple, and the two
outputs coincide whenever no two distinct output permissions share that
triple (distinct inputs can collide, see the counterexample). -/
theorem permissions_order_independent :
    ∀ (ps₁ ps₂ : List PermissionBlock) (r₁ r₂ : List Permission),
      ps₁.Perm ps₂ →
      expandKafkaPermissions ps₁ = Except.ok r₁ →
      expandKafkaPermissions ps₂ = Except.ok r₂ →
      r₁.Perm r₂ ∧ List.Sorted permLe r₁ ∧ List.Sorted permLe r₂ ∧
        ((∀ a ∈ r₁, ∀ b ∈ r₁, permKey a = permKey b → a = b) → r₁ = r₂) := by
  intro ps₁ ps₂ r₁ r₂ hp h1 h2
  unfold expandKafkaPermissions at h1 h2
  cases hl1 : expandKafkaPermissionsList ps₁ with
  | error e => rw [hl1] at h1; exact absurd h1 (by simp [Except.map])
  | ok l1 =>
    rw [hl1] at h1
    cases hl2 : expandKafkaPermissionsList ps₂ with
    | error e => rw [hl2] at h2; exact absurd h2 (by simp [Except.map])
    | ok l2 =>
      rw [hl2] at h2
      simp only [Except.map, Except.ok.injEq] at h1 h2
      have hperm : r₁.Perm r₂ := by
        rw [← h1, ← h2]
        unfold sortPermissions
        have hmap : l1.Perm l2 := by
          rw [expandKafkaPermissionsList_ok ps₁ l1 hl1,
            expandKafkaPermissionsList_ok ps₂ l2 hl2]
          exact hp.map blockToPermission
        exact ((List.perm_insertionSort permLe l1).trans hmap).trans
          (List.perm_insertionSort permLe l2).symm
      have hs1 : List.Sorted permLe r₁ := by
        rw [← h1]; exact List.sorted_insertionSort permLe l1
      have hs2 : List.Sorted permLe r₂ := by
        rw [← h2]; exact List.sorted_insertionSort permLe l2
      exact ⟨hperm, hs1, hs2,
        fun hinj => sorted_perm_eq_of_injKeys r₁ r₂ hperm hs1 hs2 hinj⟩

/-- A permission block on topic "s" with the admin role. -/
def permBlockS : PermissionBlock :=
  { topic_name := "s", role := "ACCESS_ROLE_ADMIN", allow_hosts := [] }

/-- A permission block on topic "t" with the producer role. -/
def permBlockT : PermissionBlock :=
  { topic_name := "t", role := "ACCESS_ROLE_PRODUCER", allow_hosts := [] }

/-- C4 witness: a two-block input with distinct identity triples expands to
the same sorted list under both orders. -/
theorem permissions_order_independent_witness :
    expandKafkaPermissions [permBlockT, permBlockS] =
      Except.ok [{ topicName := "s", role := 3, allowHosts := [] },
                 { topicName := "t", role := 1, allowHosts := [] }] ∧
    expandKafkaPermissions [permBlockS, permBlockT] =
      Except.ok [{ topicName := "s", role := 3, allowHosts := [] },
                 { topicName := "t", role := 1, allowHosts := [] }] ∧
    List.Sorted permLe [{ topicName := "s", role := 3, allowHosts := [] },
                        { topicName := "t", role := 1, allowHosts := [] }] := by
  refine ⟨rfl, rfl, ?_⟩
  have h := permissions_order_independent [permBlockT, permBlockS] [permBlockS, permBlockT]
    [{ topicName := "s", role := 3, allowHosts := [] },
     { topicName := "t", role := 1, allowHosts := [] }]
    [{ topicName := "s", role := 3, allowHosts := [] },
     { topicName := "t", role := 1, allowHosts := [] }]
    (List.Perm.swap permBlockS permBlockT []) rfl rfl
  exact h.2.1

end KafkaProvider
